import Mathlib

/-!
Verification development for the demo-flows repository: shallow embeddings of
the repository's flow scripts and of the orchestrator core that its spec
describes, together with proofs of the spec's claims about them.
-/

namespace DemoFlows

/-! ## Custom states (src/custom_states_flow.py) -/

namespace CustomStates

/-- The two underlying state types used by the source's `Completed(...)` and
`Failed(...)` constructors. -/
inductive StateKind where
  | completed
  | failed
  deriving DecidableEq, Repr

/-- A framework state object: an underlying type plus a custom display name
and message, as produced by `Completed(name=..., message=...)` /
`Failed(name=..., message=...)` in the source. -/
structure PState where
  kind : StateKind
  name : String
  message : String
  deriving DecidableEq, Repr

def Completed (name message : String) : PState := ⟨StateKind.completed, name, message⟩

def Failed (name message : String) : PState := ⟨StateKind.failed, name, message⟩

/-- The `state_configs` dictionary of `custom_state_task`
(src/custom_states_flow.py lines 21-34), in source order. -/
def state_configs : List (String × PState) :=
  [ ("Success", Completed "Success" "Task completed successfully"),
    ("Validated", Completed "Validated" "Data validation passed"),
    ("Processed", Completed "Processed" "Processing completed"),
    ("Finalized", Completed "Finalized" "Task finalized"),
    ("Error", Failed "Error" "An error occurred during execution"),
    ("Invalid", Failed "Invalid" "Invalid input data detected"),
    ("Timeout", Failed "Timeout" "Task execution timed out"),
    ("Rejected", Failed "Rejected" "Task was rejected") ]

/-- `custom_state_task` (src/custom_states_flow.py lines 13-37): looks the
input up in `state_configs` and returns the state; a Python dict lookup on a
missing key raises `KeyError`. -/
def custom_state_task (state_type : String) : Except String PState :=
  match state_configs.lookup state_type with
  | some st => Except.ok st
  | none => Except.error ("KeyError: " ++ state_type)

def completedNames : List String := ["Success", "Validated", "Processed", "Finalized"]

def failedNames : List String := ["Error", "Invalid", "Timeout", "Rejected"]

end CustomStates

/-! ## GalaxyQuest (src/galaxy_quest.py) -/

namespace Galaxy

/-- Python errors the flow body can raise; reading a local variable that was
never assigned raises `UnboundLocalError` (a subclass of `NameError`). -/
inductive PyError where
  | unboundLocalError (name : String)
  deriving DecidableEq, Repr

/-- The local variables of the `GalaxyQuest` flow body that are assigned only
inside the `if not truncate:` branch (src/galaxy_quest.py lines 164-177).
`none` models "never assigned". Values are opaque task-future tokens. -/
structure Locals where
  mapping : Option Nat
  sling : Option Nat
  nebula : Option Nat
  voyager : Option Nat
  mining : Option Nat
  deriving DecidableEq, Repr

/-- Reading a Python local: raises `UnboundLocalError` when unassigned. -/
def readLocal (v : Option Nat) (name : String) : Except PyError Nat :=
  match v with
  | some x => Except.ok x
  | none => Except.error (PyError.unboundLocalError name)

/-- The `GalaxyQuest` flow body (src/galaxy_quest.py lines 142-218), reduced
to its local-variable data flow: the branch guarded by `if not truncate:`
assigns `mapping`, `sling`, `nebula`, `voyager`, `mining`; the final statement
is `return sling`. -/
def GalaxyQuest (truncate : Bool) : Except PyError Nat :=
  let locals0 : Locals := ⟨none, none, none, none, none⟩
  let locals1 : Locals :=
    if ¬ truncate then ⟨some 1, some 2, some 3, some 4, some 5⟩ else locals0
  readLocal locals1.sling "sling"

end Galaxy

/-! ## Dashboard health validation (src/museum-admin/museum_operations_flow.py) -/

namespace Museum

/-- Lifecycle state of a recorded task run. -/
inductive RState where
  | completed
  | failed
  | running
  deriving DecidableEq, Repr

/-- `state.is_completed()` from the source. -/
def is_completed (s : RState) : Bool := s == RState.completed

/-- The result payload of a successful validation (the fields the claims
inspect). -/
structure Payload where
  validation_status : String
  pattern : String
  deriving DecidableEq, Repr

/-- Modelled from the spec and the source's documented query semantics
(src/museum-admin/museum_operations_flow.py lines 1696-1707): the Run State
Store query `read_task_runs` sorted by `END_TIME_DESC` with NULLS LAST and
`limit=10`. `history` is the list of this task's completed prior run states,
most recent first; the task's own in-flight run has a null end time and
therefore sorts after every completed run. The Prefect client executing this
query is not part of src/. -/
def read_task_runs (history : List RState) : List RState :=
  (history ++ [RState.running]).take 10

/-- The body of `check_last_run` inside `validate_dashboard_health`
(src/museum-admin/museum_operations_flow.py lines 1708-1744): if a run is
found at index 0 and its state `is_completed`, raise `ValueError`; otherwise
succeed. -/
def check_last_run (task_runs : List RState) : Except String Payload :=
  match task_runs with
  | last_state :: _ =>
    if is_completed last_state then
      Except.error "Dashboard validation failed: Previous run succeeded"
    else
      Except.ok ⟨"passed", "alternating_after_failure"⟩
  | [] => Except.ok ⟨"passed", "first_run"⟩

/-- `validate_dashboard_health` (src/museum-admin/museum_operations_flow.py
lines 1678-1746): run `check_last_run` on the store query's result. -/
def validate_dashboard_health (history : List RState) : Except String Payload :=
  check_last_run (read_task_runs history)

/-- The state recorded for a run of the task, from its outcome. -/
def outcomeState (history : List RState) : RState :=
  match validate_dashboard_health history with
  | Except.ok _ => RState.completed
  | Except.error _ => RState.failed

/-- History (most recent first) after `n` consecutive runs of the task,
starting from no history. -/
def runSeq : Nat → List RState
  | 0 => []
  | n + 1 => outcomeState (runSeq n) :: runSeq n

end Museum

/-! ## Retry Controller -/

namespace Retry

/-- Attempt counter loop. `go body r i` runs attempt `i`; on failure it
retries with `r` remaining retries at attempt `i + 1`. Returns the number of
attempts made and the final result. -/
def go (body : Nat → Except ε α) : Nat → Nat → Nat × Except ε α
  | 0, i => (1, body i)
  | r + 1, i =>
    match body i with
    | Except.ok a => (1, Except.ok a)
    | Except.error _ =>
      let rec_result := go body r (i + 1)
      (rec_result.1 + 1, rec_result.2)

/-- Modelled from the spec: the Retry Controller's `attempt(unit, run_fn)`
with `retry_limit = R` — up to `R` additional attempts after the first, each
retry a fully independent execution; exhausting retries yields the last
error. The controller itself lives in the external framework; the scripts
(e.g. `thread_needle` in src/embroider_task_servers.py) only configure
`retries=R`. `body i` is the outcome of the `i`-th invocation (0-based). -/
def attempt (R : Nat) (body : Nat → Except ε α) : Nat × Except ε α :=
  go body R 0

/-- A terminal node state as reported with the result. -/
inductive Terminal where
  | completed
  | failed
  deriving DecidableEq, Repr

/-- The terminal state reported for a retry-controller result. -/
def terminalOf (res : Except ε α) : Terminal :=
  match res with
  | Except.ok _ => Terminal.completed
  | Except.error _ => Terminal.failed

end Retry

/-! ## Retry backoff delay -/

namespace Backoff

/-- Modelled from the spec: the delay the Retry Controller inserts between
consecutive attempts, `B * (1 + u)` where `u = random_uniform(0, J)` and `J`
is the jitter factor (configured as `retry_jitter_factor` by e.g.
`satin_stitch` in src/embroider_task_servers.py; the delay computation lives
in the external framework). -/
def backoff_delay (B u : ℚ) : ℚ := B * (1 + u)

end Backoff

/-! ## Mapper -/

namespace Mapper

/-- One graph node produced by dynamic mapping: the upstream node-id set it
depends on, and the one element of the input collection it receives. -/
structure MappedNode (α : Type) where
  upstreams : List Nat
  arg : α
  deriving DecidableEq, Repr

/-- Modelled from the spec: `expand(unit, input_collection)` — the Mapper
expands a mapped Unit (e.g. `Node.map([...])` in src/process_node_map.py)
over a collection into one independent node per element, each depending on
the same upstream set as the original mapped declaration. The expansion
itself happens in the external framework. -/
def expand (upstreams : List Nat) (inputs : List α) : List (MappedNode α) :=
  inputs.map (fun x => ⟨upstreams, x⟩)

/-- Waiting on the aggregate of mapped-node outcomes (`.wait()` in
src/process_node_map.py): succeeds when every node's outcome succeeded;
trivially succeeds on the empty collection. -/
def waitAll (outcomes : List Bool) : Bool := outcomes.all (fun b => b)

end Mapper

/-! ## Scheduler/Dispatcher -/

namespace Sched

/-- Terminal state of a graph node after a flow run. -/
inductive NState where
  | completed
  | failed
  | upstreamFailed
  deriving DecidableEq, Repr

/-- One graph node: upstream node ids (task dependency edges), declared asset
dependencies (lineage only), asset keys it materializes on completion, and
the outcome its body would produce if invoked. Nodes are indexed in a
topological order, so `deps` entries are expected to be smaller indices. -/
structure Node where
  deps : List Nat
  assetDeps : List String
  materializes : List String
  bodyOk : Bool
  deriving DecidableEq, Repr

/-- Modelled from the spec: the Scheduler's per-node terminal-state
computation (the Scheduler itself lives in the external framework; the
scripts only declare `wait_for` edges). `statesUpTo g n` is the list of
terminal states of nodes `0 .. n-1`, computed in dependency order: a node
whose upstream set contains any non-Completed node is marked UpstreamFailed
and its body is never invoked; otherwise its body runs and yields Completed
or Failed. Asset dependencies are deliberately not consulted. -/
def statesUpTo (g : Nat → Node) : Nat → List NState
  | 0 => []
  | n + 1 =>
    let prev := statesUpTo g n
    prev ++
      [ if ((g n).deps.filter (fun j => decide (j < n))).any
            (fun j => prev.getD j NState.completed != NState.completed) then
          NState.upstreamFailed
        else if (g n).bodyOk then NState.completed
        else NState.failed ]

/-- The terminal state of node `i`. -/
def nodeState (g : Nat → Node) (i : Nat) : NState :=
  (statesUpTo g (i + 1)).getD i NState.completed

/-- Whether node `i`'s body is invoked: exactly when every task-dependency
upstream finished Completed (asset dependencies play no role). -/
def bodyInvoked (g : Nat → Node) (i : Nat) : Bool :=
  ((g i).deps.filter (fun j => decide (j < i))).all
    (fun j => nodeState g j == NState.completed)

/-- The RunResult: every node's terminal state, enumerated. -/
def runResult (g : Nat → Node) (n : Nat) : List (Nat × NState) :=
  (List.range n).map (fun i => (i, nodeState g i))

/-- Asset keys materialized during the run: those of nodes that completed. -/
def materializedInRun (g : Nat → Node) (n : Nat) : List String :=
  (List.range n).foldr
    (fun i acc =>
      if nodeState g i = NState.completed then (g i).materializes ++ acc
      else acc) []

/-- Dependency edge: `x` is an upstream of `y`. -/
def Edge (g : Nat → Node) (x y : Nat) : Prop := x ∈ (g y).deps

/-- `y` is reachable from `x` along dependency edges (downstream). -/
def Reaches (g : Nat → Node) : Nat → Nat → Prop := Relation.TransGen (Edge g)

end Sched

/-! ## Concrete asset flow (src/assets/main.py) -/

namespace AssetFlow

/-- The `train_models` flow (src/assets/main.py lines 36-57) with
`fail=False`, over the scheduler model: node 0 is
`prepare_customer_features` (no task upstream, `asset_deps` on the staged
customer data asset, materializes nothing), node 1 is
`train_customer_segments` (task upstream node 0 via its `features` argument,
materializes the customer-segments asset). The staged customer data asset is
never materialized in this flow run. -/
def trainModelsGraph : Nat → Sched.Node := fun i =>
  if i = 0 then
    ⟨[], ["snowflake://data_team/staging/customer_data"], [], true⟩
  else if i = 1 then
    ⟨[0], [], ["bigquery://data-team-ml/customer_segments"], true⟩
  else ⟨[], [], [], true⟩

/-- The same graph with the `asset_deps` declaration removed from node 0. -/
def trainModelsGraphNoAssetDeps : Nat → Sched.Node := fun i =>
  if i = 0 then ⟨[], [], [], true⟩
  else if i = 1 then
    ⟨[0], [], ["bigquery://data-team-ml/customer_segments"], true⟩
  else ⟨[], [], [], true⟩

end AssetFlow

/-! ## Asset Lineage Tracker -/

namespace Assets

/-- A recorded materialization event: asset key, flow run id, declared
upstream asset keys, and free-form metadata. -/
structure MatEvent where
  assetKey : String
  runId : Nat
  upstreamKeys : List String
  metadata : List (String × String)
  deriving DecidableEq, Repr

/-- The (asset_key, run_id) identity predicate for events. -/
def matchesKey (key : String) (runId : Nat) (e : MatEvent) : Bool :=
  e.assetKey == key && e.runId == runId

/-- Modelled from the spec: the Asset Lineage Tracker's
`record_materialization(asset_key, declared_upstream_asset_keys, metadata)` —
idempotent per (asset_key, run_id): if the run already has an event for the
asset, the event's declared upstreams and metadata are updated in place;
otherwise one event is appended. The tracker lives in the external framework;
the scripts (e.g. `materialize_dynamic_asset` in src/assets/dask_example.py,
which records the same asset twice in one run via a direct call plus
`.submit`) only emit materializations. -/
def record_materialization (store : List MatEvent) (key : String)
    (runId : Nat) (ups : List String) (md : List (String × String)) :
    List MatEvent :=
  if store.any (matchesKey key runId) then
    store.map (fun e => if matchesKey key runId e then ⟨key, runId, ups, md⟩ else e)
  else store ++ [⟨key, runId, ups, md⟩]

/-- The lineage entries recorded for one (asset_key, run_id) pair. -/
def eventsFor (store : List MatEvent) (key : String) (runId : Nat) :
    List MatEvent :=
  store.filter (matchesKey key runId)

end Assets

/-! ## Graph Builder -/

namespace Build

/-- One dependency edge declared in a flow: `step adj a b` when `b` is in
`a`'s declared edge set. -/
def step {n : Nat} (adj : Fin n → Finset (Fin n)) (a b : Fin n) : Prop :=
  b ∈ adj a

/-- The declaration set contains a (possibly indirect) cycle: some node
reaches itself along one or more declared edges. -/
def HasCycle {n : Nat} (adj : Fin n → Finset (Fin n)) : Prop :=
  ∃ v, Relation.TransGen (step adj) v v

/-- One saturation step of reachability: a set together with everything one
edge away from it. -/
def grow {n : Nat} (adj : Fin n → Finset (Fin n)) (S : Finset (Fin n)) :
    Finset (Fin n) :=
  S ∪ S.biUnion adj

/-- All nodes reachable from `v` in at least one step: the saturation of
`v`'s successor set under `grow`, which stabilizes within `n` steps. -/
def reachSet {n : Nat} (adj : Fin n → Finset (Fin n)) (v : Fin n) :
    Finset (Fin n) :=
  (grow adj)^[n] (adj v)

/-- The executable cycle check the Graph Builder runs before dispatch. -/
def hasCycleB {n : Nat} (adj : Fin n → Finset (Fin n)) : Bool :=
  decide (∃ v : Fin n, v ∈ reachSet adj v)

/-- Build-time errors. -/
inductive BuildError where
  | cyclicGraphError
  deriving DecidableEq, Repr

/-- A successfully built graph: the declarations, handed over unexecuted. -/
structure BuiltGraph (n : Nat) where
  adj : Fin n → Finset (Fin n)
  bodies : Fin n → Bool

/-- Modelled from the spec: the Graph Builder's `build(flow_definition)` —
checks the declared dependency edges for cycles and fails with
`CyclicGraphError` before any node is dispatched or executed; the builder
lives in the external framework, the scripts (e.g. src/Random-Seed.py) only
declare tasks and edges. -/
def build {n : Nat} (adj : Fin n → Finset (Fin n)) (bodies : Fin n → Bool) :
    Except BuildError (BuiltGraph n) :=
  if hasCycleB adj then Except.error BuildError.cyclicGraphError
  else Except.ok ⟨adj, bodies⟩

end Build

/-! ## Concrete example graphs -/

namespace Examples

/-- A three-node chain 0 → 1 → 2 whose root's body fails, in the style of
`AnswerMedicalQueries` (src/answer_medical_queries.py): a failing upstream
(`RetrieveRelevantInformation` with `failure_rate=1`) with `wait_for`
dependents downstream. -/
def chainGraph : Nat → Sched.Node := fun i =>
  if i = 0 then ⟨[], [], [], false⟩
  else if i = 1 then ⟨[0], [], [], true⟩
  else if i = 2 then ⟨[1], [], [], true⟩
  else ⟨[], [], [], true⟩

/-- The indirect cycle A → B → C → A on three nodes. -/
def cycleABC : Fin 3 → Finset (Fin 3) := fun v =>
  if v = 0 then {1} else if v = 1 then {2} else {0}

/-- An acyclic two-node declaration (one edge 0 → 1), the shape of
`SingleTaskSchematic`-style flows. -/
def acyclicPair : Fin 2 → Finset (Fin 2) := fun v =>
  if v = 0 then {1} else ∅

end Examples

/-! ## Theorems -/

namespace Sched

theorem length_statesUpTo (g : Nat → Node) : ∀ n, (statesUpTo g n).length = n := by
  intro n
  induction n with
  | zero => rfl
  | succ n ih => simp [statesUpTo, ih]

theorem statesUpTo_getD_stable (g : Nat → Node) (i : Nat) :
    ∀ m n, i < m → m ≤ n →
      (statesUpTo g n).getD i NState.completed =
      (statesUpTo g m).getD i NState.completed := by
  intro m n him hmn
  induction n with
  | zero => omega
  | succ n ih =>
    rcases Nat.lt_or_ge m (n + 1) with hlt | hge
    · have hmn' : m ≤ n := by omega
      rw [← ih hmn']
      show (statesUpTo g n ++ _).getD i NState.completed = _
      have hlen : i < (statesUpTo g n).length := by
        rw [length_statesUpTo]
        omega
      rw [List.getD_append _ _ _ _ hlen]
    · have : m = n + 1 := by omega
      rw [this]

theorem statesUpTo_getD (g : Nat → Node) (i n : Nat) (hin : i < n) :
    (statesUpTo g n).getD i NState.completed = nodeState g i := by
  rw [nodeState]
  exact statesUpTo_getD_stable g i (i + 1) n (by omega) (by omega)

theorem list_any_congr {α : Type} (f h : α → Bool) :
    ∀ l : List α, (∀ a ∈ l, f a = h a) → l.any f = l.any h := by
  intro l
  induction l with
  | nil => intro _; rfl
  | cons a t ih =>
    intro hfa
    simp only [List.any_cons]
    rw [hfa a (by simp), ih (fun b hb => hfa b (by simp [hb]))]

/-- The recurrence the Scheduler's state computation satisfies. -/
theorem nodeState_eq (g : Nat → Node) (i : Nat) :
    nodeState g i =
      if ((g i).deps.filter (fun j => decide (j < i))).any
          (fun j => nodeState g j != NState.completed) then
        NState.upstreamFailed
      else if (g i).bodyOk then NState.completed
      else NState.failed := by
  show (statesUpTo g (i + 1)).getD i NState.completed = _
  show (statesUpTo g i ++ _).getD i NState.completed = _
  rw [List.getD_append_right _ _ _ _ (length_statesUpTo g i).le]
  rw [length_statesUpTo, Nat.sub_self]
  have hany : ((g i).deps.filter (fun j => decide (j < i))).any
      (fun j => (statesUpTo g i).getD j NState.completed != NState.completed) =
      ((g i).deps.filter (fun j => decide (j < i))).any
      (fun j => nodeState g j != NState.completed) := by
    apply list_any_congr
    intro j hj
    have hji : j < i := by
      have := List.mem_filter.mp hj
      simpa using this.2
    rw [statesUpTo_getD g j i hji]
  rw [List.getD_cons_zero, hany]

/-- A node one of whose upstreams (below it in topological order) is not
Completed ends UpstreamFailed and its body is not invoked. -/
theorem bad_dep_upstreamFailed (g : Nat → Node) (i j : Nat)
    (hj : j ∈ (g i).deps) (hji : j < i)
    (hbad : nodeState g j ≠ NState.completed) :
    nodeState g i = NState.upstreamFailed ∧ bodyInvoked g i = false := by
  have hmem : j ∈ (g i).deps.filter (fun j => decide (j < i)) := by
    simp [List.mem_filter, hj, hji]
  constructor
  · rw [nodeState_eq]
    have hany : ((g i).deps.filter (fun j => decide (j < i))).any
        (fun j => nodeState g j != NState.completed) = true := by
      rw [List.any_eq_true]
      exact ⟨j, hmem, by simpa using hbad⟩
    rw [hany]
    rfl
  · rw [bodyInvoked]
    rw [Bool.eq_false_iff]
    intro hall
    rw [List.all_eq_true] at hall
    have := hall j hmem
    simp at this
    exact hbad this

end Sched

namespace Build

theorem subset_grow {n : Nat} (adj : Fin n → Finset (Fin n))
    (S : Finset (Fin n)) : S ⊆ grow adj S :=
  Finset.subset_union_left

theorem subset_iterate_grow {n : Nat} (adj : Fin n → Finset (Fin n))
    (S : Finset (Fin n)) : ∀ k, S ⊆ (grow adj)^[k] S := by
  intro k
  induction k with
  | zero => exact fun a ha => ha
  | succ k ih =>
    rw [Function.iterate_succ_apply']
    exact fun a ha => subset_grow adj _ (ih ha)

theorem iterate_grow_sound {n : Nat} (adj : Fin n → Finset (Fin n))
    (u : Fin n) :
    ∀ k (S : Finset (Fin n)),
      (∀ w ∈ S, Relation.TransGen (step adj) u w) →
      ∀ v ∈ (grow adj)^[k] S, Relation.TransGen (step adj) u v := by
  intro k
  induction k with
  | zero => exact fun S hS v hv => hS v hv
  | succ k ih =>
    intro S hS v hv
    rw [Function.iterate_succ_apply] at hv
    refine ih (grow adj S) ?_ v hv
    intro w hw
    rcases Finset.mem_union.mp hw with hw | hw
    · exact hS w hw
    · rcases Finset.mem_biUnion.mp hw with ⟨s, hs, hws⟩
      exact (hS s hs).tail hws

theorem reachSet_sound {n : Nat} (adj : Fin n → Finset (Fin n)) (u v : Fin n)
    (hv : v ∈ reachSet adj u) : Relation.TransGen (step adj) u v :=
  iterate_grow_sound adj u n (adj u)
    (fun w hw => Relation.TransGen.single hw) v hv

theorem iterate_stab {α : Type} (f : α → α) (S : α) (k : Nat)
    (hk : f^[k + 1] S = f^[k] S) :
    ∀ m, k ≤ m → f^[m] S = f^[k] S := by
  intro m
  induction m with
  | zero =>
    intro hm
    have : k = 0 := Nat.le_zero.mp hm
    rw [this]
  | succ m ih =>
    intro hm
    rcases Nat.lt_or_ge k (m + 1) with hlt | hge
    · have hkm : k ≤ m := by omega
      rw [Function.iterate_succ_apply', ih hkm,
        ← Function.iterate_succ_apply' f k S, hk]
    · have : k = m + 1 := by omega
      rw [this]

theorem card_of_strict_chain {n : Nat} (adj : Fin n → Finset (Fin n))
    (S : Finset (Fin n)) (k : Nat)
    (hne : ∀ j < k, (grow adj)^[j + 1] S ≠ (grow adj)^[j] S) :
    k ≤ ((grow adj)^[k] S).card := by
  induction k with
  | zero => exact Nat.zero_le _
  | succ k ih =>
    have hk : k ≤ ((grow adj)^[k] S).card :=
      ih (fun j hj => hne j (by omega))
    have hsub : (grow adj)^[k] S ⊆ (grow adj)^[k + 1] S := by
      rw [Function.iterate_succ_apply']
      exact subset_grow adj _
    have hneq : (grow adj)^[k + 1] S ≠ (grow adj)^[k] S := hne k (by omega)
    have hss : (grow adj)^[k] S ⊂ (grow adj)^[k + 1] S :=
      Finset.ssubset_iff_subset_ne.mpr ⟨hsub, fun h => hneq h.symm⟩
    have := Finset.card_lt_card hss
    omega

theorem iterate_grow_fixed {n : Nat} (adj : Fin n → Finset (Fin n))
    (S : Finset (Fin n)) :
    (grow adj)^[n + 1] S = (grow adj)^[n] S := by
  by_cases hstab : ∃ j < n, (grow adj)^[j + 1] S = (grow adj)^[j] S
  · rcases hstab with ⟨j, hjn, hj⟩
    rw [iterate_stab (grow adj) S j hj (n + 1) (by omega),
      iterate_stab (grow adj) S j hj n (by omega)]
  · push_neg at hstab
    have hn : n ≤ ((grow adj)^[n] S).card := card_of_strict_chain adj S n hstab
    have hcard : ((grow adj)^[n] S).card = n := by
      have hle : ((grow adj)^[n] S).card ≤ n := by
        have := Finset.card_le_univ ((grow adj)^[n] S)
        simpa using this
      omega
    have huniv : (grow adj)^[n] S = Finset.univ :=
      Finset.eq_univ_of_card _ (by simpa using hcard)
    rw [Function.iterate_succ_apply', huniv]
    exact Finset.univ_subset_iff.mp (subset_grow adj Finset.univ)

theorem reachSet_complete {n : Nat} (adj : Fin n → Finset (Fin n))
    (u v : Fin n) (huv : Relation.TransGen (step adj) u v) :
    v ∈ reachSet adj u := by
  induction huv with
  | single h => exact subset_iterate_grow adj (adj u) n h
  | tail tg hbv ih =>
    have hmem : _ ∈ grow adj (reachSet adj u) :=
      Finset.mem_union.mpr (Or.inr (Finset.mem_biUnion.mpr ⟨_, ih, hbv⟩))
    have : grow adj (reachSet adj u) = reachSet adj u := by
      rw [reachSet, ← Function.iterate_succ_apply' (grow adj) n (adj u)]
      exact iterate_grow_fixed adj (adj u)
    rwa [this] at hmem

/-- The executable cycle check decides `HasCycle`. -/
theorem hasCycleB_iff {n : Nat} (adj : Fin n → Finset (Fin n)) :
    hasCycleB adj = true ↔ HasCycle adj := by
  rw [hasCycleB, decide_eq_true_iff]
  constructor
  · rintro ⟨v, hv⟩
    exact ⟨v, reachSet_sound adj v v hv⟩
  · rintro ⟨v, hv⟩
    exact ⟨v, reachSet_complete adj v v hv⟩

end Build

/-- C10: `custom_state_task` is total exactly on the 8 documented state
names: each of Success/Validated/Processed/Finalized yields a Completed-type
state carrying that custom name, each of Error/Invalid/Timeout/Rejected
yields a Failed-type state carrying that custom name, and every other input
string raises `KeyError`. -/
theorem custom_state_task_total_on_documented_names :
    (∀ s ∈ CustomStates.completedNames, ∃ st,
      CustomStates.custom_state_task s = Except.ok st ∧
      st.kind = CustomStates.StateKind.completed ∧ st.name = s) ∧
    (∀ s ∈ CustomStates.failedNames, ∃ st,
      CustomStates.custom_state_task s = Except.ok st ∧
      st.kind = CustomStates.StateKind.failed ∧ st.name = s) ∧
    (∀ s, s ∉ CustomStates.state_configs.map Prod.fst →
      CustomStates.custom_state_task s = Except.error ("KeyError: " ++ s)) := by
  refine ⟨?_, ?_, ?_⟩
  · intro s hs
    fin_cases hs <;> exact ⟨_, rfl, rfl, rfl⟩
  · intro s hs
    fin_cases hs <;> exact ⟨_, rfl, rfl, rfl⟩
  · intro s hs
    simp only [CustomStates.state_configs, List.map, List.mem_cons,
      List.not_mem_nil, or_false, not_or] at hs
    obtain ⟨h1, h2, h3, h4, h5, h6, h7, h8⟩ := hs
    have e1 : (s == "Success") = false := beq_eq_false_iff_ne.mpr h1
    have e2 : (s == "Validated") = false := beq_eq_false_iff_ne.mpr h2
    have e3 : (s == "Processed") = false := beq_eq_false_iff_ne.mpr h3
    have e4 : (s == "Finalized") = false := beq_eq_false_iff_ne.mpr h4
    have e5 : (s == "Error") = false := beq_eq_false_iff_ne.mpr h5
    have e6 : (s == "Invalid") = false := beq_eq_false_iff_ne.mpr h6
    have e7 : (s == "Timeout") = false := beq_eq_false_iff_ne.mpr h7
    have e8 : (s == "Rejected") = false := beq_eq_false_iff_ne.mpr h8
    simp [CustomStates.custom_state_task, CustomStates.state_configs,
      List.lookup, e1, e2, e3, e4, e5, e6, e7, e8]

/-- Witness for C10: evaluation at the concrete inputs "Success", "Timeout"
and the undocumented input "Paused". -/
theorem custom_state_task_total_on_documented_names_witness :
    (∃ st, CustomStates.custom_state_task "Success" = Except.ok st ∧
      st.kind = CustomStates.StateKind.completed ∧ st.name = "Success") ∧
    (∃ st, CustomStates.custom_state_task "Timeout" = Except.ok st ∧
      st.kind = CustomStates.StateKind.failed ∧ st.name = "Timeout") ∧
    CustomStates.custom_state_task "Paused" = Except.error "KeyError: Paused" :=
  ⟨custom_state_task_total_on_documented_names.1 "Success" (by decide),
   custom_state_task_total_on_documented_names.2.1 "Timeout" (by decide),
   custom_state_task_total_on_documented_names.2.2 "Paused" (by decide)⟩

/-- C9: calling the GalaxyQuest flow with `truncate = True` raises an
unbound-local error at the final `return sling`, because `sling` is assigned
only inside the `if not truncate:` branch; with `truncate = False` the return
is well-defined. -/
theorem galaxy_quest_truncate_unbound_local :
    Galaxy.GalaxyQuest true =
      Except.error (Galaxy.PyError.unboundLocalError "sling") ∧
    ∃ v, Galaxy.GalaxyQuest false = Except.ok v := by
  exact ⟨rfl, ⟨2, rfl⟩⟩

/-- C1: the self-introspecting validation task's outcomes alternate based on
its own last run record: with no history it succeeds; with a most recently
completed prior run that ended Completed it deliberately fails; with a prior
run that ended Failed (or any non-completed state) it succeeds; the query
never puts the task's own in-flight record at the head when history exists;
and across 4 consecutive runs the outcomes alternate
success/failure/success/failure. -/
theorem validate_dashboard_health_alternates :
    (∃ p, Museum.validate_dashboard_health [] = Except.ok p) ∧
    (∀ rest, Museum.validate_dashboard_health (Museum.RState.completed :: rest) =
      Except.error "Dashboard validation failed: Previous run succeeded") ∧
    (∀ s rest, s ≠ Museum.RState.completed →
      ∃ p, Museum.validate_dashboard_health (s :: rest) = Except.ok p) ∧
    (∀ h : List Museum.RState, h ≠ [] →
      (Museum.read_task_runs h).head? = h.head?) ∧
    Museum.runSeq 4 = [Museum.RState.failed, Museum.RState.completed,
      Museum.RState.failed, Museum.RState.completed] := by
  refine ⟨⟨⟨"passed", "alternating_after_failure"⟩, rfl⟩, ?_, ?_, ?_, by decide⟩
  · intro rest
    rfl
  · intro s rest hs
    cases s with
    | completed => exact absurd rfl hs
    | failed => exact ⟨⟨"passed", "alternating_after_failure"⟩, rfl⟩
    | running => exact ⟨⟨"passed", "alternating_after_failure"⟩, rfl⟩
  · intro h hne
    cases h with
    | nil => exact absurd rfl hne
    | cons a t => rfl

/-- Witness for C1: the hypotheses discharged at concrete inputs — a prior
Completed record makes the next run fail, a prior Failed record makes it
succeed, and the in-flight record is not at the head of the one-element
history's query result. -/
theorem validate_dashboard_health_alternates_witness :
    Museum.validate_dashboard_health
      [Museum.RState.completed, Museum.RState.failed] =
      Except.error "Dashboard validation failed: Previous run succeeded" ∧
    (∃ p, Museum.validate_dashboard_health [Museum.RState.failed] = Except.ok p) ∧
    (Museum.read_task_runs [Museum.RState.completed]).head? =
      some Museum.RState.completed :=
  ⟨validate_dashboard_health_alternates.2.1 [Museum.RState.failed],
   validate_dashboard_health_alternates.2.2.1 Museum.RState.failed []
     (by decide),
   by
    have := validate_dashboard_health_alternates.2.2.2.1
      [Museum.RState.completed] (by decide)
    simpa using this⟩

/-- C2: a Unit with `retry_limit = R` whose body fails on every invocation is
executed exactly R + 1 times (R = 0 means a single attempt), terminates in a
Failed state, and the error reported with that terminal state is the error
raised by the last attempt, not the first. -/
theorem retry_exhaustion_runs_R_plus_1_last_error {ε α : Type}
    (R : Nat) (e : Nat → ε) (body : Nat → Except ε α)
    (hfail : ∀ i, body i = Except.error (e i)) :
    Retry.attempt R body = (R + 1, Except.error (e R)) ∧
    Retry.terminalOf (Retry.attempt R body).2 = Retry.Terminal.failed := by
  have key : ∀ r i, Retry.go body r i = (r + 1, Except.error (e (i + r))) := by
    intro r
    induction r with
    | zero =>
      intro i
      simp [Retry.go, hfail i]
    | succ r ih =>
      intro i
      simp only [Retry.go, hfail i, ih (i + 1)]
      have : i + 1 + r = i + (r + 1) := by omega
      rw [this]
  have h0 : Retry.attempt R body = (R + 1, Except.error (e R)) := by
    have := key R 0
    simpa [Retry.attempt] using this
  exact ⟨h0, by rw [h0]; rfl⟩

/-- Witness for C2: a body that fails on attempt `i` with error `i`, retried
with `retry_limit = 2`, is attempted 3 times and reports error 2 (the last
attempt's error, not 0). -/
theorem retry_exhaustion_runs_R_plus_1_last_error_witness :
    Retry.attempt 2 (fun i => (Except.error i : Except Nat Unit)) =
      (3, Except.error 2) ∧
    Retry.terminalOf (Retry.attempt 2
      (fun i => (Except.error i : Except Nat Unit))).2 = Retry.Terminal.failed :=
  retry_exhaustion_runs_R_plus_1_last_error 2 (fun i => i)
    (fun i => Except.error i) (fun _ => rfl)

/-- C8: with `retry_backoff_seconds = B` and jitter factor `J ∈ [0, 1)`, the
delay between consecutive attempts is `B * (1 + u)` with
`u = random_uniform(0, J)`, and therefore always lies in `[B, B * (1 + J)]`. -/
theorem backoff_delay_in_range (B J u : ℚ) (hB : 0 ≤ B) (hu0 : 0 ≤ u)
    (huJ : u ≤ J) (hJ1 : J < 1) :
    B ≤ Backoff.backoff_delay B u ∧
    Backoff.backoff_delay B u ≤ B * (1 + J) := by
  unfold Backoff.backoff_delay
  constructor
  · nlinarith
  · nlinarith

/-- Witness for C8: `B = 2`, `J = 1/5`, `u = 1/10` gives a delay in
`[2, 12/5]`. -/
theorem backoff_delay_in_range_witness :
    (2 : ℚ) ≤ Backoff.backoff_delay 2 (1 / 10) ∧
    Backoff.backoff_delay 2 (1 / 10) ≤ 2 * (1 + 1 / 5) :=
  backoff_delay_in_range 2 (1 / 5) (1 / 10) (by norm_num) (by norm_num)
    (by norm_num) (by norm_num)

/-- C4: mapping a Unit over a collection of length N produces exactly N
nodes, each depending only on the original upstream set (not on each other)
and each receiving the corresponding element of the collection; the empty
collection produces zero nodes and the aggregate wait on it trivially
succeeds. -/
theorem mapper_expand_independent_nodes {α : Type} (u : List Nat)
    (xs : List α) :
    (Mapper.expand u xs).length = xs.length ∧
    (∀ i (h : i < (Mapper.expand u xs).length),
      ((Mapper.expand u xs).get ⟨i, h⟩).upstreams = u ∧
      ∃ h2 : i < xs.length,
        ((Mapper.expand u xs).get ⟨i, h⟩).arg = xs.get ⟨i, h2⟩) ∧
    Mapper.expand u ([] : List α) = [] ∧ Mapper.waitAll [] = true := by
  refine ⟨by simp [Mapper.expand], ?_, rfl, rfl⟩
  intro i h
  have h2 : i < xs.length := by simpa [Mapper.expand] using h
  refine ⟨?_, h2, ?_⟩
  · simp [Mapper.expand]
  · simp [Mapper.expand]

/-- Witness for C4: mapping over the two-element collection `[10, 20]` with
upstream set `[0]` yields two nodes carrying arguments 10 and 20. -/
theorem mapper_expand_independent_nodes_witness :
    (Mapper.expand [0] [10, 20]).length = 2 ∧
    ((Mapper.expand [0] [10, 20]).get ⟨1, by decide⟩).upstreams = [0] ∧
    ((Mapper.expand [0] [10, 20]).get ⟨1, by decide⟩).arg = 20 := by
  have h := mapper_expand_independent_nodes [0] [10, 20]
  refine ⟨h.1, (h.2.1 1 (by decide)).1, ?_⟩
  have := (h.2.1 1 (by decide)).2
  obtain ⟨h2, harg⟩ := this
  simpa using harg

/-- C3: if node X terminates Failed, then every node reachable from X along
dependency edges ends in the distinct terminal state UpstreamFailed, its body
is never invoked, and this outcome is enumerated in the RunResult. -/
theorem upstream_failure_propagates (g : Nat → Sched.Node)
    (hwf : ∀ i, ∀ j ∈ (g i).deps, j < i)
    (x y : Nat) (hx : Sched.nodeState g x = Sched.NState.failed)
    (hxy : Sched.Reaches g x y) :
    Sched.nodeState g y = Sched.NState.upstreamFailed ∧
    Sched.bodyInvoked g y = false ∧
    ∀ n, y < n → (y, Sched.NState.upstreamFailed) ∈ Sched.runResult g n := by
  have main : Sched.nodeState g y = Sched.NState.upstreamFailed ∧
      Sched.bodyInvoked g y = false := by
    induction hxy with
    | single h =>
      exact Sched.bad_dep_upstreamFailed g _ x h (hwf _ x h)
        (by rw [hx]; decide)
    | tail hxz hzy ih =>
      exact Sched.bad_dep_upstreamFailed g _ _ hzy (hwf _ _ hzy)
        (by rw [ih.1]; decide)
  refine ⟨main.1, main.2, ?_⟩
  intro n hyn
  rw [Sched.runResult, List.mem_map]
  exact ⟨y, List.mem_range.mpr hyn, by rw [main.1]⟩

/-- Witness for C3: in the chain 0 → 1 → 2 with node 0's body failing, node 2
ends UpstreamFailed with its body never invoked, observable in the RunResult. -/
theorem upstream_failure_propagates_witness :
    Sched.nodeState Examples.chainGraph 2 = Sched.NState.upstreamFailed ∧
    Sched.bodyInvoked Examples.chainGraph 2 = false ∧
    (2, Sched.NState.upstreamFailed) ∈ Sched.runResult Examples.chainGraph 3 := by
  have hwf : ∀ i, ∀ j ∈ (Examples.chainGraph i).deps, j < i := by
    intro i j hj
    by_cases h0 : i = 0
    · subst h0
      simp [Examples.chainGraph] at hj
    · by_cases h1 : i = 1
      · subst h1
        simp [Examples.chainGraph] at hj
        omega
      · by_cases h2 : i = 2
        · subst h2
          simp [Examples.chainGraph] at hj
          omega
        · simp [Examples.chainGraph, h0, h1, h2] at hj
  have e01 : Sched.Edge Examples.chainGraph 0 1 :=
    (by decide : 0 ∈ (Examples.chainGraph 1).deps)
  have e12 : Sched.Edge Examples.chainGraph 1 2 :=
    (by decide : 1 ∈ (Examples.chainGraph 2).deps)
  have hr : Sched.Reaches Examples.chainGraph 0 2 :=
    Relation.TransGen.tail (Relation.TransGen.single e01) e12
  have h := upstream_failure_propagates Examples.chainGraph hwf 0 2
    (by decide) hr
  exact ⟨h.1, h.2.1, h.2.2 3 (by omega)⟩

/-- C6: asset dependency declarations never gate execution — node states and
body dispatch depend only on task-dependency edges and body outcomes, not on
declared asset dependencies or on what was materialized; concretely, in the
`train_models` flow, `prepare_customer_features` (which declares `asset_deps`
on the staged customer data asset) is dispatched and completes even though
that asset is never materialized in the run. -/
theorem asset_deps_never_gate_execution :
    (∀ g g' : Nat → Sched.Node,
      (∀ i, (g i).deps = (g' i).deps ∧ (g i).bodyOk = (g' i).bodyOk) →
      ∀ i, Sched.nodeState g i = Sched.nodeState g' i ∧
        Sched.bodyInvoked g i = Sched.bodyInvoked g' i) ∧
    (Sched.bodyInvoked AssetFlow.trainModelsGraph 0 = true ∧
     Sched.nodeState AssetFlow.trainModelsGraph 0 = Sched.NState.completed ∧
     Sched.nodeState AssetFlow.trainModelsGraph 1 = Sched.NState.completed ∧
     (AssetFlow.trainModelsGraph 0).assetDeps =
       ["snowflake://data_team/staging/customer_data"] ∧
     "snowflake://data_team/staging/customer_data" ∉
       Sched.materializedInRun AssetFlow.trainModelsGraph 2) := by
  have hstates : ∀ g g' : Nat → Sched.Node,
      (∀ i, (g i).deps = (g' i).deps ∧ (g i).bodyOk = (g' i).bodyOk) →
      ∀ n, Sched.statesUpTo g n = Sched.statesUpTo g' n := by
    intro g g' hsame n
    induction n with
    | zero => rfl
    | succ n ih =>
      simp only [Sched.statesUpTo]
      rw [ih, (hsame n).1, (hsame n).2]
  constructor
  · intro g g' hsame i
    constructor
    · rw [Sched.nodeState, Sched.nodeState, hstates g g' hsame]
    · rw [Sched.bodyInvoked, Sched.bodyInvoked, (hsame i).1]
      have hfun : (fun j => Sched.nodeState g j == Sched.NState.completed) =
          (fun j => Sched.nodeState g' j == Sched.NState.completed) := by
        funext j
        rw [Sched.nodeState, Sched.nodeState, hstates g g' hsame]
      rw [hfun]
  · refine ⟨by decide, by decide, by decide, rfl, by decide⟩

/-- Witness for C6: the hypothesis discharged at the concrete pair of graphs
that differ only in node 0's `asset_deps` declaration — states and dispatch
coincide. -/
theorem asset_deps_never_gate_execution_witness :
    Sched.nodeState AssetFlow.trainModelsGraph 1 =
      Sched.nodeState AssetFlow.trainModelsGraphNoAssetDeps 1 ∧
    Sched.bodyInvoked AssetFlow.trainModelsGraph 0 =
      Sched.bodyInvoked AssetFlow.trainModelsGraphNoAssetDeps 0 := by
  have hsame : ∀ i, (AssetFlow.trainModelsGraph i).deps =
      (AssetFlow.trainModelsGraphNoAssetDeps i).deps ∧
      (AssetFlow.trainModelsGraph i).bodyOk =
      (AssetFlow.trainModelsGraphNoAssetDeps i).bodyOk := by
    intro i
    by_cases h0 : i = 0
    · subst h0
      exact ⟨rfl, rfl⟩
    · by_cases h1 : i = 1
      · subst h1
        exact ⟨rfl, rfl⟩
      · simp [AssetFlow.trainModelsGraph, AssetFlow.trainModelsGraphNoAssetDeps,
          h0, h1]
  have h := asset_deps_never_gate_execution.1 AssetFlow.trainModelsGraph
    AssetFlow.trainModelsGraphNoAssetDeps hsame
  exact ⟨(h 1).1, (h 0).2⟩

/-- C5: recording an asset materialization is idempotent per
(asset_key, run_id): starting from a run with no event for the pair, the
first recording creates exactly one lineage entry, a second recording within
the same run leaves exactly one entry and adds no event to the store, and the
surviving entry carries the second recording's metadata and declared
upstreams. -/
theorem record_materialization_idempotent (store : List Assets.MatEvent)
    (key : String) (runId : Nat) (u1 u2 : List String)
    (m1 m2 : List (String × String))
    (hfresh : Assets.eventsFor store key runId = []) :
    (Assets.eventsFor (Assets.record_materialization store key runId u1 m1)
        key runId).length = 1 ∧
    (Assets.eventsFor (Assets.record_materialization
        (Assets.record_materialization store key runId u1 m1)
        key runId u2 m2) key runId).length = 1 ∧
    (Assets.record_materialization
        (Assets.record_materialization store key runId u1 m1)
        key runId u2 m2).length =
      (Assets.record_materialization store key runId u1 m1).length ∧
    ∀ e ∈ Assets.eventsFor (Assets.record_materialization
        (Assets.record_materialization store key runId u1 m1)
        key runId u2 m2) key runId,
      e.metadata = m2 ∧ e.upstreamKeys = u2 := by
  have hp1 : Assets.matchesKey key runId
      (⟨key, runId, u1, m1⟩ : Assets.MatEvent) = true := by
    simp [Assets.matchesKey]
  have hanyfalse : store.any (Assets.matchesKey key runId) = false := by
    rw [List.any_eq_false]
    intro e he hpe
    have hmem : e ∈ Assets.eventsFor store key runId :=
      List.mem_filter.mpr ⟨he, hpe⟩
    rw [hfresh] at hmem
    simp at hmem
  have hs1 : Assets.record_materialization store key runId u1 m1 =
      store ++ [(⟨key, runId, u1, m1⟩ : Assets.MatEvent)] := by
    simp [Assets.record_materialization, hanyfalse]
  have hev1 : Assets.eventsFor
      (store ++ [(⟨key, runId, u1, m1⟩ : Assets.MatEvent)]) key runId =
      [(⟨key, runId, u1, m1⟩ : Assets.MatEvent)] := by
    rw [Assets.eventsFor, List.filter_append]
    rw [show store.filter (Assets.matchesKey key runId) = [] from hfresh]
    simp [hp1]
  have hany1 : (store ++ [(⟨key, runId, u1, m1⟩ : Assets.MatEvent)]).any
      (Assets.matchesKey key runId) = true := by
    rw [List.any_eq_true]
    exact ⟨⟨key, runId, u1, m1⟩, by simp, hp1⟩
  have hs2 : Assets.record_materialization
      (store ++ [(⟨key, runId, u1, m1⟩ : Assets.MatEvent)]) key runId u2 m2 =
      (store ++ [(⟨key, runId, u1, m1⟩ : Assets.MatEvent)]).map
        (fun e => if Assets.matchesKey key runId e then
          (⟨key, runId, u2, m2⟩ : Assets.MatEvent) else e) := by
    simp only [Assets.record_materialization, hany1, if_true]
  have hcomp : (Assets.matchesKey key runId ∘
      (fun e => if Assets.matchesKey key runId e
        then (⟨key, runId, u2, m2⟩ : Assets.MatEvent) else e)) =
      Assets.matchesKey key runId := by
    funext e
    simp only [Function.comp]
    by_cases hpe : Assets.matchesKey key runId e = true
    · rw [if_pos hpe, hpe]
      simp [Assets.matchesKey]
    · rw [if_neg hpe]
  have hev2 : Assets.eventsFor (Assets.record_materialization
      (store ++ [(⟨key, runId, u1, m1⟩ : Assets.MatEvent)]) key runId u2 m2)
      key runId = [(⟨key, runId, u2, m2⟩ : Assets.MatEvent)] := by
    rw [hs2, Assets.eventsFor, List.filter_map, hcomp]
    rw [show (store ++ [(⟨key, runId, u1, m1⟩ : Assets.MatEvent)]).filter
        (Assets.matchesKey key runId) =
        [(⟨key, runId, u1, m1⟩ : Assets.MatEvent)] from hev1]
    simp [hp1]
  rw [hs1]
  refine ⟨by rw [hev1]; rfl, by rw [hev2]; rfl, by rw [hs2]; simp, ?_⟩
  intro e he
  rw [hev2] at he
  simp at he
  rw [he]
  exact ⟨rfl, rfl⟩

/-- Witness for C5: recording the dask-example dynamic asset twice in run 7
of an empty store leaves a single entry carrying the second metadata. -/
theorem record_materialization_idempotent_witness :
    (Assets.eventsFor (Assets.record_materialization
        (Assets.record_materialization []
          "s3://search-team/documents/document_0" 7
          ["elasticsearch://search-team/documents"] [("attempt", "1")])
        "s3://search-team/documents/document_0" 7
        ["elasticsearch://search-team/documents"] [("attempt", "2")])
      "s3://search-team/documents/document_0" 7).length = 1 ∧
    ∀ e ∈ Assets.eventsFor (Assets.record_materialization
        (Assets.record_materialization []
          "s3://search-team/documents/document_0" 7
          ["elasticsearch://search-team/documents"] [("attempt", "1")])
        "s3://search-team/documents/document_0" 7
        ["elasticsearch://search-team/documents"] [("attempt", "2")])
      "s3://search-team/documents/document_0" 7,
      e.metadata = [("attempt", "2")] ∧
      e.upstreamKeys = ["elasticsearch://search-team/documents"] := by
  have h := record_materialization_idempotent []
    "s3://search-team/documents/document_0" 7
    ["elasticsearch://search-team/documents"]
    ["elasticsearch://search-team/documents"]
    [("attempt", "1")] [("attempt", "2")] rfl
  exact ⟨h.2.1, h.2.2.2⟩

/-- C7: for every acyclic dependency declaration set the Graph Builder's
build succeeds (producing the graph unexecuted); for every declaration set
containing a cycle — even an indirect one such as A → B → C → A — build
fails with CyclicGraphError for every choice of node bodies, i.e. before any
node is dispatched or executed. -/
theorem build_fails_iff_cycle (n : Nat) (adj : Fin n → Finset (Fin n))
    (bodies : Fin n → Bool) :
    (¬ Build.HasCycle adj →
      Build.build adj bodies = Except.ok ⟨adj, bodies⟩) ∧
    (Build.HasCycle adj → ∀ bodies' : Fin n → Bool,
      Build.build adj bodies' =
        Except.error Build.BuildError.cyclicGraphError) := by
  constructor
  · intro hac
    have hfalse : Build.hasCycleB adj = false := by
      rw [Bool.eq_false_iff]
      intro h
      exact hac ((Build.hasCycleB_iff adj).mp h)
    simp [Build.build, hfalse]
  · intro hc bodies'
    simp [Build.build, (Build.hasCycleB_iff adj).mpr hc]

/-- Witness for C7: build succeeds on the acyclic two-node declaration and
fails with CyclicGraphError on the indirect cycle A → B → C → A. -/
theorem build_fails_iff_cycle_witness :
    Build.build Examples.acyclicPair (fun _ => true) =
      Except.ok ⟨Examples.acyclicPair, fun _ => true⟩ ∧
    Build.build Examples.cycleABC (fun _ => true) =
      Except.error Build.BuildError.cyclicGraphError := by
  constructor
  · exact (build_fails_iff_cycle 2 Examples.acyclicPair (fun _ => true)).1
      (fun h => absurd ((Build.hasCycleB_iff Examples.acyclicPair).mpr h)
        (by decide))
  · exact (build_fails_iff_cycle 3 Examples.cycleABC (fun _ => true)).2
      ((Build.hasCycleB_iff Examples.cycleABC).mp (by decide)) (fun _ => true)

end DemoFlows
